import Mathlib

/-!
Verification of the AnnotateFlow timeline engine.

This file shallowly embeds the timeline scheduling core of the
application (the `pathData`, `timeline` and `getAnimationState`
derivations of `src/unnamed/part_001`, lines 80-246) and proves the
testable properties stated in the design specification against it.

Modelling conventions:
* JavaScript floating-point numbers are idealised as real numbers `ℝ`.
* A JavaScript out-of-range array read yields `undefined`, and arithmetic
  on it yields `NaN`, whose comparisons are all false.  We model the read
  `pointDistances[i]` as an `Option ℝ` (`idx?`), `NaN`-producing
  arithmetic as `Option.map`, and a comparison `NaN > c` as the predicate
  `optLT c none`, which is `False`.
* The source combines annotations and areas and stable-sorts them by
  their `order` key before the scheduling loop; the scheduling loop is
  embedded as `stepItem`/`processItems` over the already-sorted item
  list (the "scheduling order").  `sortedItems` embeds the sort itself.
-/

namespace AnnotateFlow

noncomputable section

/-- A waypoint of the path (the `Point` interface of `src/types.ts`;
the optional display color is irrelevant to the timeline engine). -/
structure Point where
  x : ℝ
  y : ℝ

/-- Distance helper of `src/unnamed/part_001` line 9:
`Math.sqrt((p2.x-p1.x)^2 + (p2.y-p1.y)^2)`. -/
def dist (p1 p2 : Point) : ℝ :=
  Real.sqrt ((p2.x - p1.x) ^ 2 + (p2.y - p1.y) ^ 2)

/-- The timing-relevant fields of the `Annotation` interface of
`src/types.ts`.  `pathIndex` is an integer because the engine must
tolerate negative values.  Display-only fields (text, offset, styling)
are omitted as they never reach the timeline engine. -/
structure Annotation where
  id : String
  pathIndex : ℤ
  order : ℝ
  segmentDuration : Option ℝ
  pauseDuration : Option ℝ

/-- The timing-relevant fields of the `Area` interface of `src/types.ts`.
The polygon and styling fields are omitted; `appearDuration` is kept
optional because the source reads it with `?? defaultAreaDuration`. -/
structure Area where
  id : String
  order : ℝ
  appearDuration : Option ℝ

/-- The discriminated union built at `src/unnamed/part_001` lines 107-110
(`itemType: 'annotation' | 'area'`). -/
inductive TimedItem where
  | ann (a : Annotation)
  | area (ar : Area)

/-- The sort key of a timed item (`a.order - b.order` comparator). -/
def itemOrder : TimedItem → ℝ
  | .ann a => a.order
  | .area ar => ar.order

/-- The timing-relevant fields of `AppSettings` (`src/types.ts`). -/
structure AppSettings where
  enableFlash : Bool
  flashDuration : ℝ
  defaultSegmentDuration : ℝ
  defaultPauseDuration : ℝ
  defaultAreaDuration : ℝ

/-- Lines 107-110: `[...annotations, ...areas].sort((a, b) => a.order -
b.order)` — a stable sort of the combined item list by `order`. -/
def sortedItems (anns : List Annotation) (ars : List Area) : List TimedItem :=
  ((anns.map TimedItem.ann) ++ (ars.map TimedItem.area)).mergeSort
    (fun a b => decide (itemOrder a ≤ itemOrder b))

/-- Result of the `pathData` derivation (lines 80-92). -/
structure PathData where
  totalLength : ℝ
  segmentLengths : List ℝ
  pointDistances : List ℝ

/-- The loop body of `pathData`: starting from point `p`, walk the rest
of the points accumulating `totalLength`, `segmentLengths` and the
running `pointDistances` pushes. -/
def pathDataAux (p : Point) (rest : List Point) (totalLength : ℝ)
    (segAcc ptAcc : List ℝ) : PathData :=
  match rest with
  | [] => ⟨totalLength, segAcc, ptAcc⟩
  | q :: rest' =>
      pathDataAux q rest' (totalLength + dist p q)
        (segAcc ++ [dist p q]) (ptAcc ++ [totalLength + dist p q])

/-- Lines 80-92: cumulative arc-length metrics of the waypoint list.
`pointDistances` is initialised to `[0]` and receives the running total
after each segment; `totalLength` is the sum of the segment lengths. -/
def pathData (points : List Point) : PathData :=
  match points with
  | [] => ⟨0, [], [0]⟩
  | p :: rest => pathDataAux p rest 0 [] [0]

/-- Event type tag (`'draw' | 'wait' | 'area'`). -/
inductive EventType where
  | draw
  | wait
  | area
deriving DecidableEq

/-- A schedule entry (lines 97-104). -/
structure Event where
  type : EventType
  startTime : ℝ
  duration : ℝ
  startDist : ℝ
  endDist : ℝ
  itemId : Option String

/-- The timeline builder output (line 188). -/
structure Timeline where
  schedule : List Event
  totalDuration : ℝ

/-- The mutable cursors of the scheduling loop (lines 112-115). -/
structure BuildState where
  schedule : List Event
  timeCursor : ℝ
  distCursor : ℝ
  currentPointIdx : ℤ

/-- Initial loop state: `timeCursor = 0`, `distCursor = 0`,
`currentPointIdx = 0` and an empty schedule. -/
def initState : BuildState :=
  ⟨[], 0, 0, 0⟩

/-- A JavaScript array read `l[i]`: `none` stands for `undefined`
(negative or past-the-end index). -/
def idx? (l : List ℝ) (i : ℤ) : Option ℝ :=
  if 0 ≤ i then l[i.toNat]? else none

/-- The JavaScript comparison `v > c` where `v` may be `NaN`
(modelled `none`): comparisons against `NaN` are false. -/
def optLT (c : ℝ) : Option ℝ → Prop
  | some d => c < d
  | none => False

instance (c : ℝ) : (o : Option ℝ) → Decidable (optLT c o)
  | some d => inferInstanceAs (Decidable (c < d))
  | none => inferInstanceAs (Decidable False)

/-- Lines 123-126: `segmentDist` starts `0` and becomes
`pointDistances[targetIdx] - pointDistances[currentPointIdx]` when
`targetIdx > currentPointIdx`; an out-of-range read makes it `NaN`. -/
def annSegmentDist (pd : PathData) (st : BuildState) (targetIdx : ℤ) : Option ℝ :=
  if st.currentPointIdx < targetIdx then
    match idx? pd.pointDistances targetIdx, idx? pd.pointDistances st.currentPointIdx with
    | some a, some b => some (a - b)
    | _, _ => none
  else some 0

/-- Lines 117-169: the body of the scheduling loop for one item.
An annotation first emits a `draw` event when `segmentDist > 0` or in
the degenerate bootstrap case (`currentPointIdx === 0 && targetIdx === 0
&& schedule.length === 0`), then always emits a `wait` event and moves
`currentPointIdx` to its `pathIndex`.  An area emits a single `area`
event.  Each push advances `timeCursor` by the event's duration. -/
def stepItem (pd : PathData) (s : AppSettings) (st : BuildState) :
    TimedItem → BuildState
  | .ann a =>
      let segmentDist := annSegmentDist pd st a.pathIndex
      let st1 : BuildState :=
        if optLT 0 segmentDist ∨
            (st.currentPointIdx = 0 ∧ a.pathIndex = 0 ∧ st.schedule.length = 0) then
          { st with
            schedule := st.schedule ++
              [{ type := .draw, startTime := st.timeCursor,
                 duration := a.segmentDuration.getD s.defaultSegmentDuration,
                 startDist := st.distCursor,
                 endDist := st.distCursor + segmentDist.getD 0,
                 itemId := none }],
            timeCursor := st.timeCursor + a.segmentDuration.getD s.defaultSegmentDuration,
            distCursor := st.distCursor + segmentDist.getD 0 }
        else st
      { st1 with
        schedule := st1.schedule ++
          [{ type := .wait, startTime := st1.timeCursor,
             duration := a.pauseDuration.getD s.defaultPauseDuration,
             startDist := st1.distCursor, endDist := st1.distCursor,
             itemId := some a.id }],
        timeCursor := st1.timeCursor + a.pauseDuration.getD s.defaultPauseDuration,
        currentPointIdx := a.pathIndex }
  | .area ar =>
      { st with
        schedule := st.schedule ++
          [{ type := .area, startTime := st.timeCursor,
             duration := ar.appearDuration.getD s.defaultAreaDuration,
             startDist := st.distCursor, endDist := st.distCursor,
             itemId := some ar.id }],
        timeCursor := st.timeCursor + ar.appearDuration.getD s.defaultAreaDuration }

/-- The `for (const item of items)` loop over the sorted items. -/
def processItems (pd : PathData) (s : AppSettings) (st : BuildState)
    (items : List TimedItem) : BuildState :=
  List.foldl (stepItem pd s) st items

/-- Lines 172-188: after the loop, if `points.length > 0 &&
currentPointIdx < points.length - 1` and the remaining distance
`totalLength - pointDistances[currentPointIdx]` exceeds `0.1`, emit a
trailing `draw` event with the default segment duration; the final
`timeCursor` becomes `totalDuration`. -/
def finishTail (pts : List Point) (pd : PathData) (s : AppSettings)
    (st : BuildState) : Timeline :=
  let remainingDist : Option ℝ :=
    (idx? pd.pointDistances st.currentPointIdx).map (fun x => pd.totalLength - x)
  if 0 < pts.length ∧ st.currentPointIdx < (pts.length : ℤ) - 1 ∧
      optLT 0.1 remainingDist then
    { schedule := st.schedule ++
        [{ type := .draw, startTime := st.timeCursor,
           duration := s.defaultSegmentDuration,
           startDist := st.distCursor,
           endDist := st.distCursor + remainingDist.getD 0,
           itemId := none }],
      totalDuration := st.timeCursor + s.defaultSegmentDuration }
  else ⟨st.schedule, st.timeCursor⟩

/-- Lines 95-190: the full timeline builder over an item list already in
scheduling order. -/
def timeline (pts : List Point) (items : List TimedItem) (s : AppSettings) :
    Timeline :=
  finishTail pts (pathData pts) s (processItems (pathData pts) s initState items)

/-- The timeline builder as invoked by the app: annotations and areas
are merged and stable-sorted by `order` first (lines 107-110). -/
def buildTimeline (pts : List Point) (anns : List Annotation) (ars : List Area)
    (s : AppSettings) : Timeline :=
  timeline pts (sortedItems anns ars) s

/-- The output of `getAnimationState` (lines 195-246). -/
structure AnimState where
  currentDistance : ℝ
  activeAnnotationIds : List String
  visibleAreaIds : List String
  isFlashing : Bool

/-- The predicate of line 210: `effectiveTime >= e.startTime &&
effectiveTime < e.startTime + e.duration`. -/
def isActiveAt (t : ℝ) (e : Event) : Prop :=
  e.startTime ≤ t ∧ t < e.startTime + e.duration

instance (t : ℝ) (e : Event) : Decidable (isActiveAt t e) :=
  inferInstanceAs (Decidable (e.startTime ≤ t ∧ t < e.startTime + e.duration))

/-- Line 210: `schedule.find(...)` — the first event whose span contains
the effective time. -/
def findActive (t : ℝ) : List Event → Option Event
  | [] => none
  | e :: rest => if isActiveAt t e then some e else findActive t rest

/-- Line 217: `schedule.filter(e => e.startTime + e.duration <=
effectiveTime)` — the fully elapsed events. -/
def passedEvents (t : ℝ) : List Event → List Event
  | [] => []
  | e :: rest =>
      if e.startTime + e.duration ≤ t then e :: passedEvents t rest
      else passedEvents t rest

/-- Lines 217-220: collect the `itemId`s of the events of a given type
(the `forEach` pushes over the passed events). -/
def collectIds (ty : EventType) : List Event → List String
  | [] => []
  | e :: rest =>
      match e.itemId with
      | some id => if e.type = ty then id :: collectIds ty rest else collectIds ty rest
      | none => collectIds ty rest

/-- Lines 223-224: the id pushed for the active event when it is a
`wait` (resp. `area`) event carrying an `itemId`. -/
def activeIdList (ty : EventType) : Option Event → List String
  | some e =>
      match e.itemId with
      | some id => if e.type = ty then [id] else []
      | none => []
  | none => []

/-- Lines 210-245: the timeline phase of the resolver, evaluated at a
non-negative effective time.  The active event, if a `draw`, linearly
interpolates the distance; `wait`/`area` freeze it; with no active event
the distance is `totalLength` past the end and `0` otherwise. -/
def timelinePhase (tl : Timeline) (pd : PathData) (effectiveTime : ℝ) : AnimState :=
  let activeEvent := findActive effectiveTime tl.schedule
  let passed := passedEvents effectiveTime tl.schedule
  { currentDistance :=
      match activeEvent with
      | some e =>
          if e.type = .draw then
            e.startDist + (e.endDist - e.startDist) *
              ((effectiveTime - e.startTime) / e.duration)
          else e.startDist
      | none => if tl.totalDuration ≤ effectiveTime then pd.totalLength else 0
  , activeAnnotationIds := collectIds .wait passed ++ activeIdList .wait activeEvent
  , visibleAreaIds := collectIds .area passed ++ activeIdList .area activeEvent
  , isFlashing := false }

/-- The list of Euclidean distances between consecutive waypoints, used
to state the specification's description of `pathData`. -/
def consecDists : List Point → List ℝ
  | p :: q :: rest => dist p q :: consecDists (q :: rest)
  | _ => []

/-- Running totals of a list of segment lengths starting from `t`
(the successive values pushed onto `pointDistances`). -/
def cumFrom (t : ℝ) : List ℝ → List ℝ
  | [] => []
  | d :: ds => (t + d) :: cumFrom (t + d) ds

/-- The schedule shape the builder guarantees: each event starts exactly
where the previous one ended, beginning at `t0`. -/
def chainFrom : ℝ → List Event → Prop
  | _, [] => True
  | t0, e :: rest => e.startTime = t0 ∧ chainFrom (t0 + e.duration) rest

/-- The time at which a chained schedule beginning at `t0` ends. -/
def endTime : ℝ → List Event → ℝ
  | t0, [] => t0
  | t0, e :: rest => endTime (t0 + e.duration) rest

/-- The item's effective durations (after applying the defaults) are
non-negative. -/
def nonNegItem (s : AppSettings) : TimedItem → Prop
  | .ann a =>
      0 ≤ a.segmentDuration.getD s.defaultSegmentDuration ∧
      0 ≤ a.pauseDuration.getD s.defaultPauseDuration
  | .area ar => 0 ≤ ar.appearDuration.getD s.defaultAreaDuration

/-! Concrete inputs used by the boundary-scenario claims. -/

/-- Item id used by the boundary-scenario annotation. -/
def idA1 : String := "a1"

/-- Item id used by the bootstrap-scenario annotation. -/
def idB1 : String := "b1"

/-- Item ids used by further concrete scenarios. -/
def idC1 : String := "c1"

def idC2 : String := "c2"

def idO1 : String := "o1"

def idX1 : String := "x1"

def idY1 : String := "y1"

/-- Flash-disabled settings with `defaults.segment = 3` (the boundary
scenario of the specification). -/
def sC2 : AppSettings :=
  ⟨false, 0.5, 3, 1.5, 2⟩

/-- The three waypoints `(0,0), (10,0), (10,10)` of the boundary
scenario. -/
def pts3 : List Point :=
  [⟨0, 0⟩, ⟨10, 0⟩, ⟨10, 10⟩]

/-- Two waypoints `(0,0), (10,0)`. -/
def pts2 : List Point :=
  [⟨0, 0⟩, ⟨10, 0⟩]

/-- The boundary-scenario annotation: `pathIndex = 1`,
`segmentDuration = 2`, `pauseDuration = 1`. -/
def annC2 : Annotation :=
  ⟨idA1, 1, 1, some 2, some 1⟩

/-- A first-waypoint annotation triggering the bootstrap case:
`pathIndex = 0`, `segmentDuration = 2`, `pauseDuration = 1`. -/
def annB : Annotation :=
  ⟨idB1, 0, 1, some 2, some 1⟩

/-- First annotation of the negative-duration scenario. -/
def annNeg1 : Annotation :=
  ⟨idC1, 0, 1, some 1, some 5⟩

/-- Second annotation of the negative-duration scenario: its
`pauseDuration` is negative. -/
def annNeg2 : Annotation :=
  ⟨idC2, 0, 2, some 1, some (-5)⟩

/-- An annotation with an out-of-range `pathIndex = 5`. -/
def annOOB : Annotation :=
  ⟨idO1, 5, 1, some 2, some 1⟩

/-- Backward-`pathIndex` scenario: first annotation at `pathIndex = 2`. -/
def annX : Annotation :=
  ⟨idX1, 2, 1, some 1, some 1⟩

/-- Backward-`pathIndex` scenario: second annotation at `pathIndex = 0`. -/
def annY : Annotation :=
  ⟨idY1, 0, 2, some 1, some 1⟩

/-- Line 206: the elapsed time with the flash prefix subtracted. -/
def effTime (s : AppSettings) (time : ℝ) : ℝ :=
  if s.enableFlash then time - s.flashDuration else time

/-- Lines 195-246: the playback state resolver.  During the flash prefix
it reports the flashing zero state; a negative effective time yields the
empty non-flashing zero state; otherwise the timeline phase applies. -/
def getAnimationState (s : AppSettings) (tl : Timeline) (pd : PathData)
    (time : ℝ) : AnimState :=
  if s.enableFlash = true ∧ time < s.flashDuration then
    { currentDistance := 0, activeAnnotationIds := [], visibleAreaIds := [],
      isFlashing := true }
  else if effTime s time < 0 then
    { currentDistance := 0, activeAnnotationIds := [], visibleAreaIds := [],
      isFlashing := false }
  else timelinePhase tl pd (effTime s time)

/-! ### Metrics provider: closed form -/

theorem pathDataAux_eq (rest : List Point) : ∀ (p : Point) (T : ℝ) (sa pa : List ℝ),
    pathDataAux p rest T sa pa =
      ⟨T + (consecDists (p :: rest)).sum, sa ++ consecDists (p :: rest),
        pa ++ cumFrom T (consecDists (p :: rest))⟩ := by
  induction rest with
  | nil => intro p T sa pa; simp [pathDataAux, consecDists, cumFrom]
  | cons q rest ih =>
      intro p T sa pa
      rw [pathDataAux, ih]
      simp [consecDists, cumFrom, add_assoc]

theorem pathData_eq (ps : List Point) :
    pathData ps =
      ⟨(consecDists ps).sum, consecDists ps, 0 :: cumFrom 0 (consecDists ps)⟩ := by
  cases ps with
  | nil => simp [pathData, consecDists, cumFrom]
  | cons p rest => rw [pathData, pathDataAux_eq]; simp

theorem cumFrom_length (l : List ℝ) : ∀ t : ℝ, (cumFrom t l).length = l.length := by
  induction l with
  | nil => intro t; rfl
  | cons d ds ih => intro t; simp [cumFrom, ih]

theorem cumFrom_getElem? (l : List ℝ) : ∀ (t : ℝ) (i : ℕ), i < l.length →
    (cumFrom t l)[i]? = some (t + (l.take (i + 1)).sum) := by
  induction l with
  | nil => intro t i h; simp at h
  | cons d ds ih =>
      intro t i h
      cases i with
      | zero => simp [cumFrom]
      | succ j =>
          have hj : j < ds.length := by simpa using h
          simp [cumFrom, ih (t + d) j hj, add_assoc]

theorem cumFrom_getLast? (l : List ℝ) (hl : l ≠ []) :
    ∀ t : ℝ, (cumFrom t l).getLast? = some (t + l.sum) := by
  induction l with
  | nil => exact absurd rfl hl
  | cons d ds ih =>
      intro t
      cases ds with
      | nil => simp [cumFrom]
      | cons d2 ds2 =>
          rw [cumFrom, cumFrom, List.getLast?_cons_cons, ← cumFrom]
          rw [ih (by simp) (t + d)]
          simp [add_assoc]

theorem consecDists_length (ps : List Point) :
    (consecDists ps).length = ps.length - 1 := by
  induction ps with
  | nil => rfl
  | cons p rest ih =>
      cases rest with
      | nil => rfl
      | cons q r => simpa [consecDists] using ih

theorem consecDists_eq_nil {ps : List Point} (h : ps.length ≤ 1) :
    consecDists ps = [] := by
  match ps with
  | [] => rfl
  | [p] => rfl
  | p :: q :: r => simp at h

/-! ### Concrete distance evaluations -/

theorem dist_ex1 : dist ⟨0, 0⟩ ⟨10, 0⟩ = 10 := by
  rw [dist, show ((10:ℝ) - 0) ^ 2 + ((0:ℝ) - 0) ^ 2 = 10 ^ 2 by norm_num]
  exact Real.sqrt_sq (by norm_num)

theorem dist_ex2 : dist ⟨10, 0⟩ ⟨10, 10⟩ = 10 := by
  rw [dist, show ((10:ℝ) - 10) ^ 2 + ((10:ℝ) - 0) ^ 2 = 10 ^ 2 by norm_num]
  exact Real.sqrt_sq (by norm_num)

theorem dist_ex3 : dist ⟨0, 0⟩ ⟨3, 4⟩ = 5 := by
  rw [dist, show ((3:ℝ) - 0) ^ 2 + ((4:ℝ) - 0) ^ 2 = 5 ^ 2 by norm_num]
  exact Real.sqrt_sq (by norm_num)

theorem pathData_pts3 : pathData pts3 = ⟨20, [10, 10], [0, 10, 20]⟩ := by
  rw [pts3, pathData_eq]
  simp [consecDists, cumFrom, dist_ex1, dist_ex2]
  norm_num

theorem pathData_pts2 : pathData pts2 = ⟨10, [10], [0, 10]⟩ := by
  rw [pts2, pathData_eq]
  simp [consecDists, cumFrom, dist_ex1]

/-- Claim C8: the Metrics Provider computes `cumulativeDistances` with
`cumulativeDistances[0] = 0`, `cumulativeDistances[i]` equal to the sum
of the Euclidean distances between consecutive waypoints from waypoint 0
through waypoint `i` (the `segmentLengths` are exactly those distances),
`totalLength` equal to the last entry, and for zero or one waypoint it
returns `totalLength = 0` and `cumulativeDistances = [0]` (which
satisfies the claim's "`[0]` (or empty for zero waypoints)"). -/
theorem claim_C8 :
    (∀ ps : List Point, (pathData ps).pointDistances[0]? = some 0) ∧
    (∀ ps : List Point, (pathData ps).segmentLengths = consecDists ps) ∧
    (∀ (ps : List Point) (i : ℕ), i < (pathData ps).pointDistances.length →
      (pathData ps).pointDistances[i]? = some ((consecDists ps).take i).sum) ∧
    (∀ ps : List Point, (pathData ps).pointDistances.length = ps.length - 1 + 1) ∧
    (∀ ps : List Point,
      (pathData ps).pointDistances.getLast? = some (pathData ps).totalLength) ∧
    (∀ ps : List Point, ps.length ≤ 1 →
      (pathData ps).totalLength = 0 ∧ (pathData ps).pointDistances = [0]) := by
  refine ⟨?_, ?_, ?_, ?_, ?_, ?_⟩
  · intro ps; rw [pathData_eq]; simp
  · intro ps; rw [pathData_eq]
  · intro ps i h
    rw [pathData_eq] at h ⊢
    cases i with
    | zero => simp
    | succ j =>
        have hj : j < (consecDists ps).length := by
          simpa [cumFrom_length] using h
        simp [cumFrom_getElem? (consecDists ps) 0 j hj]
  · intro ps; rw [pathData_eq]; simp [cumFrom_length, consecDists_length]
  · intro ps
    rw [pathData_eq]
    cases hc : consecDists ps with
    | nil => simp [cumFrom]
    | cons d ds =>
        rw [show cumFrom 0 (d :: ds) = (0 + d) :: cumFrom (0 + d) ds from rfl,
          List.getLast?_cons_cons]
        rw [show (0 + d) :: cumFrom (0 + d) ds = cumFrom 0 (d :: ds) from rfl]
        rw [cumFrom_getLast? (d :: ds) (by simp) 0]
        simp
  · intro ps h
    rw [pathData_eq, consecDists_eq_nil h]
    simp [cumFrom]

/-- Witness for C8 at the concrete waypoints `(0,0), (3,4)`: index 1 is
in range and `cumulativeDistances[1]` is the one-segment Euclidean sum,
namely `5`. -/
theorem claim_C8_witness :
    1 < (pathData [⟨0, 0⟩, ⟨3, 4⟩]).pointDistances.length ∧
    (pathData [⟨0, 0⟩, ⟨3, 4⟩]).pointDistances[1]? =
      some ((consecDists [⟨0, 0⟩, ⟨3, 4⟩]).take 1).sum ∧
    ((consecDists [⟨0, 0⟩, ⟨3, 4⟩]).take 1).sum = 5 := by
  refine ⟨?_, claim_C8.2.2.1 [⟨0, 0⟩, ⟨3, 4⟩] 1 ?_, ?_⟩
  · rw [pathData_eq]; simp [consecDists, cumFrom]
  · rw [pathData_eq]; simp [consecDists, cumFrom]
  · simp [consecDists, dist_ex3]

/-! ### Concrete builder and resolver evaluations -/

theorem timeline_C2 :
    timeline pts3 [.ann annC2] sC2 =
      ⟨[⟨.draw, 0, 2, 0, 10, none⟩, ⟨.wait, 2, 1, 10, 10, some idA1⟩,
        ⟨.draw, 3, 3, 10, 20, none⟩], 6⟩ := by
  rw [timeline, pathData_pts3]
  norm_num [processItems, stepItem, initState, annSegmentDist, idx?, optLT,
    finishTail, annC2, sC2, pts3]

theorem anim_C2_t1 :
    getAnimationState sC2 (timeline pts3 [.ann annC2] sC2) (pathData pts3) 1 =
      ⟨5, [], [], false⟩ := by
  rw [timeline_C2, pathData_pts3]
  norm_num [getAnimationState, effTime, sC2, timelinePhase, findActive,
    isActiveAt, passedEvents, collectIds, activeIdList]

theorem anim_C2_t25 :
    getAnimationState sC2 (timeline pts3 [.ann annC2] sC2) (pathData pts3) 2.5 =
      ⟨10, [idA1], [], false⟩ := by
  rw [timeline_C2, pathData_pts3]
  norm_num [getAnimationState, effTime, sC2, timelinePhase, findActive,
    isActiveAt, passedEvents, collectIds, activeIdList]
  decide

theorem anim_C2_t5 :
    (getAnimationState sC2 (timeline pts3 [.ann annC2] sC2) (pathData pts3)
      5).currentDistance = 50 / 3 := by
  rw [timeline_C2, pathData_pts3]
  norm_num [getAnimationState, effTime, sC2, timelinePhase, findActive,
    isActiveAt, passedEvents, collectIds, activeIdList]

theorem timeline_C1ex :
    timeline pts2 [.ann annB] sC2 =
      ⟨[⟨.draw, 0, 2, 0, 0, none⟩, ⟨.wait, 2, 1, 0, 0, some idB1⟩,
        ⟨.draw, 3, 3, 0, 10, none⟩], 6⟩ := by
  rw [timeline, pathData_pts2]
  norm_num [processItems, stepItem, initState, annSegmentDist, idx?, optLT,
    finishTail, annB, sC2, pts2]

theorem timeline_neg :
    timeline pts2 [.ann annNeg1, .ann annNeg2] sC2 =
      ⟨[⟨.draw, 0, 1, 0, 0, none⟩, ⟨.wait, 1, 5, 0, 0, some idC1⟩,
        ⟨.wait, 6, -5, 0, 0, some idC2⟩, ⟨.draw, 1, 3, 0, 10, none⟩], 4⟩ := by
  rw [timeline, pathData_pts2]
  norm_num [processItems, stepItem, initState, annSegmentDist, idx?, optLT,
    finishTail, annNeg1, annNeg2, sC2, pts2]

/-! ### The builder only appends to the schedule -/

theorem stepItem_sched_append (pd : PathData) (s : AppSettings) (st : BuildState)
    (it : TimedItem) : ∃ l, (stepItem pd s st it).schedule = st.schedule ++ l := by
  cases it with
  | ann a =>
      simp only [stepItem]
      split
      · exact ⟨_, List.append_assoc _ _ _⟩
      · exact ⟨_, rfl⟩
  | area ar => exact ⟨_, rfl⟩

theorem processItems_sched_append (pd : PathData) (s : AppSettings)
    (items : List TimedItem) : ∀ st : BuildState,
    ∃ l, (processItems pd s st items).schedule = st.schedule ++ l := by
  induction items with
  | nil => intro st; exact ⟨[], by simp [processItems]⟩
  | cons it rest ih =>
      intro st
      obtain ⟨l1, h1⟩ := stepItem_sched_append pd s st it
      obtain ⟨l2, h2⟩ := ih (stepItem pd s st it)
      refine ⟨l1 ++ l2, ?_⟩
      have : processItems pd s st (it :: rest) =
          processItems pd s (stepItem pd s st it) rest := rfl
      rw [this, h2, h1, List.append_assoc]

theorem finishTail_sched_append (pts : List Point) (pd : PathData)
    (s : AppSettings) (st : BuildState) :
    ∃ l, (finishTail pts pd s st).schedule = st.schedule ++ l := by
  rw [finishTail]
  split
  · exact ⟨_, rfl⟩
  · exact ⟨[], by simp⟩

theorem timeline_sched_append (pts : List Point) (s : AppSettings)
    (it : TimedItem) (rest : List TimedItem) :
    ∃ l, (timeline pts (it :: rest) s).schedule =
      (stepItem (pathData pts) s initState it).schedule ++ l := by
  obtain ⟨l1, h1⟩ := processItems_sched_append (pathData pts) s rest
    (stepItem (pathData pts) s initState it)
  obtain ⟨l2, h2⟩ := finishTail_sched_append pts (pathData pts) s
    (processItems (pathData pts) s initState (it :: rest))
  refine ⟨l1 ++ l2, ?_⟩
  have : processItems (pathData pts) s initState (it :: rest) =
      processItems (pathData pts) s (stepItem (pathData pts) s initState it) rest := rfl
  rw [timeline, h2, this, h1, List.append_assoc]

/-! ### Claims C1 and C2 -/

/-- Counterexample to claim C1 at the input: waypoints `(0,0), (10,0)`,
one annotation at `pathIndex = 0` with `segmentDuration = 2`,
`pauseDuration = 1`, defaults segment `3`.  The bootstrap draw event has
duration `2`, not zero, and it delays the following wait event to
`startTime = 2` and the total duration to `6` (without the bootstrap
event they would be `0` and `4`). -/
theorem claim_C1_counterexample :
    (timeline pts2 [.ann annB] sC2).schedule[0]? =
      some ⟨.draw, 0, 2, 0, 0, none⟩ ∧
    ((2:ℝ) ≠ 0) ∧
    (timeline pts2 [.ann annB] sC2).schedule[1]? =
      some ⟨.wait, 2, 1, 0, 0, some idB1⟩ ∧
    (timeline pts2 [.ann annB] sC2).totalDuration = 6 := by
  rw [timeline_C1ex]
  norm_num

/-- Claim C1 (amended): when the very first scheduled item is an
annotation with `pathIndex = 0`, a bootstrap draw event is emitted as
the first schedule entry; it is zero-distance but has duration
`segmentDuration ?? defaults.segment`, advancing the time cursor, so the
annotation's wait event starts only after that duration (and every later
event and the total duration shift accordingly). -/
theorem claim_C1 (pts : List Point) (s : AppSettings) (a : Annotation)
    (rest : List TimedItem) (ha : a.pathIndex = 0) :
    (timeline pts (.ann a :: rest) s).schedule.take 2 =
      [⟨.draw, 0, a.segmentDuration.getD s.defaultSegmentDuration, 0, 0, none⟩,
       ⟨.wait, a.segmentDuration.getD s.defaultSegmentDuration,
         a.pauseDuration.getD s.defaultPauseDuration, 0, 0, some a.id⟩] := by
  have hstep : (stepItem (pathData pts) s initState (.ann a)).schedule =
      [⟨.draw, 0, a.segmentDuration.getD s.defaultSegmentDuration, 0, 0, none⟩,
       ⟨.wait, a.segmentDuration.getD s.defaultSegmentDuration,
         a.pauseDuration.getD s.defaultPauseDuration, 0, 0, some a.id⟩] := by
    simp [stepItem, initState, annSegmentDist, optLT, ha]
  obtain ⟨l, hl⟩ := timeline_sched_append pts s (.ann a) rest
  rw [hl, hstep]
  simp

/-- Witness for the amended claim C1: the bootstrap scenario of the
counterexample instantiates the amended statement, with
`segmentDuration = 2` and `pauseDuration = 1`. -/
theorem claim_C1_witness :
    (timeline pts2 [.ann annB] sC2).schedule.take 2 =
      [⟨.draw, 0, 2, 0, 0, none⟩, ⟨.wait, 2, 1, 0, 0, some idB1⟩] := by
  have h := claim_C1 pts2 sC2 annB [] rfl
  simpa [annB, sC2] using h

/-- Claim C2: the boundary scenario.  3 waypoints `(0,0), (10,0),
(10,10)`, one annotation at `pathIndex = 1` with `segmentDuration = 2`
and `pauseDuration = 1`, defaults segment `3`, flash disabled: the
schedule is `draw[0,2] 0→10`, `wait[2,1] 10`, `draw[3,3] 10→20` with
`totalDuration = 6`; the resolver yields distance `5` and no revealed
ids at `t = 1`, distance `10` with the annotation revealed at `t = 2.5`,
and distance `50/3` at `t = 5`. -/
theorem claim_C2 :
    timeline pts3 [.ann annC2] sC2 =
      ⟨[⟨.draw, 0, 2, 0, 10, none⟩, ⟨.wait, 2, 1, 10, 10, some idA1⟩,
        ⟨.draw, 3, 3, 10, 20, none⟩], 6⟩ ∧
    getAnimationState sC2 (timeline pts3 [.ann annC2] sC2) (pathData pts3) 1 =
      ⟨5, [], [], false⟩ ∧
    getAnimationState sC2 (timeline pts3 [.ann annC2] sC2) (pathData pts3) 2.5 =
      ⟨10, [idA1], [], false⟩ ∧
    (getAnimationState sC2 (timeline pts3 [.ann annC2] sC2) (pathData pts3)
      5).currentDistance = 50 / 3 :=
  ⟨timeline_C2, anim_C2_t1, anim_C2_t25, anim_C2_t5⟩

/-! ### The builder emits a contiguous schedule -/

theorem endTime_append (e : Event) : ∀ (l : List Event) (t0 : ℝ),
    endTime t0 (l ++ [e]) = endTime t0 l + e.duration := by
  intro l
  induction l with
  | nil => intro t0; rfl
  | cons f rest ih => intro t0; exact ih (t0 + f.duration)

theorem chainFrom_append (e : Event) : ∀ (l : List Event) (t0 : ℝ),
    chainFrom t0 l → e.startTime = endTime t0 l → chainFrom t0 (l ++ [e]) := by
  intro l
  induction l with
  | nil => intro t0 _ he; exact ⟨he, trivial⟩
  | cons f rest ih => intro t0 h he; exact ⟨h.1, ih (t0 + f.duration) h.2 he⟩

theorem schedOk_push {sched : List Event} {tc : ℝ} (e : Event)
    (h1 : chainFrom 0 sched) (h2 : endTime 0 sched = tc)
    (he : e.startTime = tc) :
    chainFrom 0 (sched ++ [e]) ∧ endTime 0 (sched ++ [e]) = tc + e.duration :=
  ⟨chainFrom_append e sched 0 h1 (he.trans h2.symm), by rw [endTime_append, h2]⟩

theorem stepItem_schedOk (pd : PathData) (s : AppSettings) (st : BuildState)
    (it : TimedItem) (h1 : chainFrom 0 st.schedule)
    (h2 : endTime 0 st.schedule = st.timeCursor) :
    chainFrom 0 (stepItem pd s st it).schedule ∧
      endTime 0 (stepItem pd s st it).schedule = (stepItem pd s st it).timeCursor := by
  cases it with
  | ann a =>
      simp only [stepItem]
      split
      · have k1 := schedOk_push
          { type := .draw, startTime := st.timeCursor,
            duration := a.segmentDuration.getD s.defaultSegmentDuration,
            startDist := st.distCursor,
            endDist := st.distCursor + (annSegmentDist pd st a.pathIndex).getD 0,
            itemId := none } h1 h2 rfl
        exact schedOk_push _ k1.1 k1.2 rfl
      · exact schedOk_push _ h1 h2 rfl
  | area ar => exact schedOk_push _ h1 h2 rfl

theorem processItems_schedOk (pd : PathData) (s : AppSettings)
    (items : List TimedItem) : ∀ st : BuildState, chainFrom 0 st.schedule →
    endTime 0 st.schedule = st.timeCursor →
    chainFrom 0 (processItems pd s st items).schedule ∧
      endTime 0 (processItems pd s st items).schedule =
        (processItems pd s st items).timeCursor := by
  induction items with
  | nil => intro st h1 h2; exact ⟨h1, h2⟩
  | cons it rest ih =>
      intro st h1 h2
      obtain ⟨k1, k2⟩ := stepItem_schedOk pd s st it h1 h2
      exact ih (stepItem pd s st it) k1 k2

theorem timeline_schedOk (pts : List Point) (items : List TimedItem)
    (s : AppSettings) :
    chainFrom 0 (timeline pts items s).schedule ∧
      endTime 0 (timeline pts items s).schedule =
        (timeline pts items s).totalDuration := by
  obtain ⟨h1, h2⟩ := processItems_schedOk (pathData pts) s items initState
    trivial rfl
  rw [timeline, finishTail]
  split
  · exact schedOk_push _ h1 h2 rfl
  · exact ⟨h1, h2⟩

/-! ### Resolver lemmas -/

theorem findActive_mem : ∀ {l : List Event} {t : ℝ} {e : Event},
    findActive t l = some e → e ∈ l ∧ isActiveAt t e := by
  intro l
  induction l with
  | nil => intro t e h; exact absurd h (by rw [findActive]; simp)
  | cons f rest ih =>
      intro t e h
      rw [findActive] at h
      by_cases hf : isActiveAt t f
      · rw [if_pos hf] at h
        injection h with h
        subst h
        exact ⟨List.mem_cons_self _ _, hf⟩
      · rw [if_neg hf] at h
        obtain ⟨hm, ha⟩ := ih h
        exact ⟨List.mem_cons_of_mem _ hm, ha⟩

theorem le_endTime : ∀ {l : List Event} {t0 : ℝ},
    (∀ e ∈ l, 0 ≤ e.duration) → t0 ≤ endTime t0 l := by
  intro l
  induction l with
  | nil => intro t0 _; exact le_refl t0
  | cons f rest ih =>
      intro t0 h
      have h0 : 0 ≤ f.duration := h f (List.mem_cons_self _ _)
      calc t0 ≤ t0 + f.duration := by linarith
        _ ≤ endTime (t0 + f.duration) rest :=
            ih fun e he => h e (List.mem_cons_of_mem _ he)

theorem chain_no_active_past_end : ∀ {l : List Event} {t0 t : ℝ},
    chainFrom t0 l → (∀ e ∈ l, 0 ≤ e.duration) → endTime t0 l ≤ t →
    findActive t l = none := by
  intro l
  induction l with
  | nil => intro t0 t _ _ _; rfl
  | cons f rest ih =>
      intro t0 t hc hd hend
      have hrest : ∀ e ∈ rest, 0 ≤ e.duration :=
        fun e he => hd e (List.mem_cons_of_mem _ he)
      have hfe : t0 + f.duration ≤ t :=
        le_trans (le_endTime hrest) hend
      rw [findActive, if_neg]
      · exact ih hc.2 hrest hend
      · intro hact
        have h2 := hact.2
        rw [hc.1] at h2
        linarith

theorem findActive_stable : ∀ {l : List Event} {t0 t1 t2 : ℝ} {e : Event},
    chainFrom t0 l → t0 ≤ t1 → t1 ≤ t2 → findActive t1 l = some e →
    t2 < e.startTime + e.duration → findActive t2 l = some e := by
  intro l
  induction l with
  | nil => intro t0 t1 t2 e _ _ _ h _; exact absurd h (by rw [findActive]; simp)
  | cons f rest ih =>
      intro t0 t1 t2 e hc h01 h12 hfind hlt
      rw [findActive] at hfind
      by_cases hf : isActiveAt t1 f
      · rw [if_pos hf] at hfind
        injection hfind with hfind
        subst hfind
        rw [findActive, if_pos ⟨le_trans hf.1 h12, hlt⟩]
      · rw [if_neg hf] at hfind
        have hstart : f.startTime = t0 := hc.1
        have hpassed : t0 + f.duration ≤ t1 := by
          by_contra hcon
          exact hf ⟨hstart.le.trans h01, by rw [hstart]; linarith⟩
        rw [findActive, if_neg]
        · exact ih hc.2 hpassed h12 hfind hlt
        · intro hact
          have h2 := hact.2
          rw [hstart] at h2
          linarith

theorem mem_passedEvents : ∀ {l : List Event} {t : ℝ} {e : Event},
    e ∈ passedEvents t l ↔ e ∈ l ∧ e.startTime + e.duration ≤ t := by
  intro l
  induction l with
  | nil => intro t e; rw [passedEvents]; simp
  | cons f rest ih =>
      intro t e
      rw [passedEvents]
      by_cases h : f.startTime + f.duration ≤ t
      · rw [if_pos h]
        constructor
        · intro hm
          rcases List.mem_cons.mp hm with rfl | hm2
          · exact ⟨List.mem_cons_self _ _, h⟩
          · obtain ⟨hm3, ht⟩ := ih.mp hm2
            exact ⟨List.mem_cons_of_mem _ hm3, ht⟩
        · rintro ⟨hm, ht⟩
          rcases List.mem_cons.mp hm with rfl | hm2
          · exact List.mem_cons_self _ _
          · exact List.mem_cons_of_mem _ (ih.mpr ⟨hm2, ht⟩)
      · rw [if_neg h]
        constructor
        · intro hm
          obtain ⟨hm2, ht⟩ := ih.mp hm
          exact ⟨List.mem_cons_of_mem _ hm2, ht⟩
        · rintro ⟨hm, ht⟩
          rcases List.mem_cons.mp hm with rfl | hm2
          · exact absurd ht h
          · exact ih.mpr ⟨hm2, ht⟩

theorem mem_collectIds : ∀ {l : List Event} {ty : EventType} {id : String},
    id ∈ collectIds ty l ↔ ∃ e ∈ l, e.itemId = some id ∧ e.type = ty := by
  intro l
  induction l with
  | nil => intro ty id; rw [collectIds]; simp
  | cons f rest ih =>
      intro ty id
      rcases hfi : f.itemId with _ | fid
      · have hcc : collectIds ty (f :: rest) = collectIds ty rest := by
          rw [collectIds, hfi]
        rw [hcc, ih]
        constructor
        · rintro ⟨e, hm, hi, hty⟩
          exact ⟨e, List.mem_cons_of_mem _ hm, hi, hty⟩
        · rintro ⟨e, hm, hi, hty⟩
          rcases List.mem_cons.mp hm with rfl | hm2
          · rw [hfi] at hi; exact absurd hi (by simp)
          · exact ⟨e, hm2, hi, hty⟩
      · have hcc : collectIds ty (f :: rest) =
            if f.type = ty then fid :: collectIds ty rest else collectIds ty rest := by
          rw [collectIds, hfi]
        rw [hcc]
        by_cases hty : f.type = ty
        · rw [if_pos hty]
          constructor
          · intro hm
            rcases List.mem_cons.mp hm with rfl | hm2
            · exact ⟨f, List.mem_cons_self _ _, hfi, hty⟩
            · obtain ⟨e, hm3, hi, hty2⟩ := ih.mp hm2
              exact ⟨e, List.mem_cons_of_mem _ hm3, hi, hty2⟩
          · rintro ⟨e, hm, hi, hty2⟩
            rcases List.mem_cons.mp hm with rfl | hm2
            · rw [hfi] at hi
              injection hi with hi
              exact hi ▸ List.mem_cons_self _ _
            · exact List.mem_cons_of_mem _ (ih.mpr ⟨e, hm2, hi, hty2⟩)
        · rw [if_neg hty, ih]
          constructor
          · rintro ⟨e, hm, hi, hty2⟩
            exact ⟨e, List.mem_cons_of_mem _ hm, hi, hty2⟩
          · rintro ⟨e, hm, hi, hty2⟩
            rcases List.mem_cons.mp hm with rfl | hm2
            · rw [hfi] at hi
              injection hi with hi
              exact absurd hty2 hty
            · exact ⟨e, hm2, hi, hty2⟩

theorem mem_activeIdList : ∀ {ty : EventType} {o : Option Event} {id : String},
    id ∈ activeIdList ty o ↔ ∃ e, o = some e ∧ e.itemId = some id ∧ e.type = ty := by
  intro ty o id
  cases o with
  | none => rw [activeIdList]; simp
  | some e =>
      rcases hfi : e.itemId with _ | fid
      · have hcc : activeIdList ty (some e) = [] := by
          rw [activeIdList, hfi]
        rw [hcc]
        constructor
        · intro h; simp at h
        · rintro ⟨f, hf, hi, hty⟩
          injection hf with hf
          subst hf
          rw [hfi] at hi
          exact absurd hi (by simp)
      · have hcc : activeIdList ty (some e) =
            if e.type = ty then [fid] else [] := by
          rw [activeIdList, hfi]
        rw [hcc]
        by_cases hty : e.type = ty
        · rw [if_pos hty]
          constructor
          · intro hm
            have hm2 := List.mem_singleton.mp hm
            subst hm2
            exact ⟨e, rfl, hfi, hty⟩
          · rintro ⟨f, hf, hi, hty2⟩
            injection hf with hf
            subst hf
            rw [hfi] at hi
            injection hi with hi
            simp [hi]
        · rw [if_neg hty]
          constructor
          · intro h; simp at h
          · rintro ⟨f, hf, hi, hty2⟩
            injection hf with hf
            subst hf
            exact absurd hty2 hty

theorem revealed_mono_core {sched : List Event} {ty : EventType} {id : String}
    {t1 t2 : ℝ} (hc : chainFrom 0 sched) (h0 : 0 ≤ t1) (h12 : t1 ≤ t2)
    (h : id ∈ collectIds ty (passedEvents t1 sched) ++
      activeIdList ty (findActive t1 sched)) :
    id ∈ collectIds ty (passedEvents t2 sched) ++
      activeIdList ty (findActive t2 sched) := by
  rw [List.mem_append] at h ⊢
  rcases h with h | h
  · left
    rw [mem_collectIds] at h ⊢
    obtain ⟨e, hm, hi, hty⟩ := h
    rw [mem_passedEvents] at hm
    exact ⟨e, mem_passedEvents.mpr ⟨hm.1, le_trans hm.2 h12⟩, hi, hty⟩
  · rw [mem_activeIdList] at h
    obtain ⟨e, hf, hi, hty⟩ := h
    by_cases hend : e.startTime + e.duration ≤ t2
    · left
      rw [mem_collectIds]
      exact ⟨e, mem_passedEvents.mpr ⟨(findActive_mem hf).1, hend⟩, hi, hty⟩
    · right
      rw [mem_activeIdList]
      exact ⟨e, findActive_stable hc h0 h12 hf (lt_of_not_le hend), hi, hty⟩

theorem effTime_mono (s : AppSettings) {t1 t2 : ℝ} (h : t1 ≤ t2) :
    effTime s t1 ≤ effTime s t2 := by
  cases hf : s.enableFlash <;> simp [effTime, hf] <;> linarith

/-! ### Claims C4 and C6 -/

/-- Claim C4: the resolver never divides by zero when interpolating a
draw event: an event with `duration = 0` never satisfies
`startTime <= t < startTime + duration`, so it is never the active
event returned by the `find` of line 210, and whenever an active event
exists its duration is strictly positive — hence the division at line
230 only happens with a positive divisor; a zero-duration event whose
start has been reached is instead already among the passed events
(instantaneously completed, never interpolated). -/
theorem claim_C4 :
    (∀ (sched : List Event) (t : ℝ) (e : Event),
      findActive t sched = some e → 0 < e.duration) ∧
    (∀ (t : ℝ) (e : Event), e.duration = 0 → ¬ isActiveAt t e) ∧
    (∀ (t : ℝ) (e : Event) (sched : List Event), e.duration = 0 → e ∈ sched →
      e.startTime ≤ t → e ∈ passedEvents t sched) := by
  refine ⟨?_, ?_, ?_⟩
  · intro sched t e h
    have ha := (findActive_mem h).2
    have h1 := ha.1
    have h2 := ha.2
    linarith
  · intro t e hd hact
    have h1 := hact.1
    have h2 := hact.2
    rw [hd] at h2
    linarith
  · intro t e sched hd hm ht
    exact mem_passedEvents.mpr ⟨hm, by rw [hd]; linarith⟩

/-- Witness for C4: on a singleton schedule the active event at `t = 1`
is the draw event, and the claim yields that its duration is positive. -/
theorem claim_C4_witness :
    findActive 1 [⟨.draw, 0, 2, 0, 10, none⟩] =
      some ⟨.draw, 0, 2, 0, 10, none⟩ ∧
    0 < (Event.mk .draw 0 2 0 10 none).duration := by
  constructor
  · norm_num [findActive, isActiveAt]
  · exact claim_C4.1 [⟨.draw, 0, 2, 0, 10, none⟩] 1 ⟨.draw, 0, 2, 0, 10, none⟩
      (by norm_num [findActive, isActiveAt])

/-- Claim C6: monotone reveal.  For any inputs to the builder, any flash
settings and any two elapsed times `t1 <= t2`, every annotation id and
every area id revealed by the resolver at `t1` is still revealed at
`t2` (in particular up to and including `totalDuration`). -/
theorem claim_C6 (pts : List Point) (items : List TimedItem) (s : AppSettings)
    (t1 t2 : ℝ) (h12 : t1 ≤ t2) :
    (∀ id ∈ (getAnimationState s (timeline pts items s) (pathData pts)
        t1).activeAnnotationIds,
      id ∈ (getAnimationState s (timeline pts items s) (pathData pts)
        t2).activeAnnotationIds) ∧
    (∀ id ∈ (getAnimationState s (timeline pts items s) (pathData pts)
        t1).visibleAreaIds,
      id ∈ (getAnimationState s (timeline pts items s) (pathData pts)
        t2).visibleAreaIds) := by
  have hchain := (timeline_schedOk pts items s).1
  by_cases h1a : s.enableFlash = true ∧ t1 < s.flashDuration
  · constructor <;> intro id hid <;>
      · rw [getAnimationState, if_pos h1a] at hid
        simp at hid
  · by_cases h1b : effTime s t1 < 0
    · constructor <;> intro id hid <;>
        · rw [getAnimationState, if_neg h1a, if_pos h1b] at hid
          simp at hid
    · have h2a : ¬(s.enableFlash = true ∧ t2 < s.flashDuration) := by
        rintro ⟨hf, h2f⟩
        exact h1a ⟨hf, lt_of_le_of_lt h12 h2f⟩
      have h2b : ¬ effTime s t2 < 0 := by
        intro hcon
        exact h1b (lt_of_le_of_lt (effTime_mono s h12) hcon)
      have h0 : 0 ≤ effTime s t1 := not_lt.mp h1b
      constructor <;> intro id hid <;>
        rw [getAnimationState, if_neg h1a, if_neg h1b] at hid <;>
        rw [getAnimationState, if_neg h2a, if_neg h2b] <;>
        exact revealed_mono_core hchain h0 (effTime_mono s h12) hid

/-- Witness for C6: in the boundary scenario the annotation is revealed
at `t = 2.5`, hence by monotonicity also at `t = 3`. -/
theorem claim_C6_witness :
    idA1 ∈ (getAnimationState sC2 (timeline pts3 [.ann annC2] sC2)
      (pathData pts3) 3).activeAnnotationIds := by
  apply (claim_C6 pts3 [.ann annC2] sC2 2.5 3 (by norm_num)).1 idA1
  rw [anim_C2_t25]
  simp

/-! ### Non-negative durations and claim C7 -/

theorem stepItem_dur_nonneg (pd : PathData) (s : AppSettings) (st : BuildState)
    (it : TimedItem) (hit : nonNegItem s it)
    (hst : ∀ e ∈ st.schedule, 0 ≤ e.duration) :
    ∀ e ∈ (stepItem pd s st it).schedule, 0 ≤ e.duration := by
  cases it with
  | ann a =>
      have hseg : 0 ≤ a.segmentDuration.getD s.defaultSegmentDuration := hit.1
      have hpause : 0 ≤ a.pauseDuration.getD s.defaultPauseDuration := hit.2
      simp only [stepItem]
      split
      · intro e he
        rcases List.mem_append.mp he with he1 | he2
        · rcases List.mem_append.mp he1 with he3 | he4
          · exact hst e he3
          · have := List.mem_singleton.mp he4
            subst this
            exact hseg
        · have := List.mem_singleton.mp he2
          subst this
          exact hpause
      · intro e he
        rcases List.mem_append.mp he with he1 | he2
        · exact hst e he1
        · have := List.mem_singleton.mp he2
          subst this
          exact hpause
  | area ar =>
      intro e he
      rcases List.mem_append.mp he with he1 | he2
      · exact hst e he1
      · have := List.mem_singleton.mp he2
        subst this
        exact hit

theorem processItems_dur_nonneg (pd : PathData) (s : AppSettings) :
    ∀ (items : List TimedItem) (st : BuildState),
    (∀ it ∈ items, nonNegItem s it) → (∀ e ∈ st.schedule, 0 ≤ e.duration) →
    ∀ e ∈ (processItems pd s st items).schedule, 0 ≤ e.duration := by
  intro items
  induction items with
  | nil => intro st _ hst; exact hst
  | cons it rest ih =>
      intro st hitems hst
      exact ih (stepItem pd s st it)
        (fun j hj => hitems j (List.mem_cons_of_mem _ hj))
        (stepItem_dur_nonneg pd s st it (hitems it (List.mem_cons_self _ _)) hst)

theorem timeline_dur_nonneg (pts : List Point) (items : List TimedItem)
    (s : AppSettings) (hseg : 0 ≤ s.defaultSegmentDuration)
    (hitems : ∀ it ∈ items, nonNegItem s it) :
    ∀ e ∈ (timeline pts items s).schedule, 0 ≤ e.duration := by
  have hproc := processItems_dur_nonneg (pathData pts) s items initState hitems
    (by intro e he; simp [initState] at he)
  rw [timeline, finishTail]
  split
  · intro e he
    rcases List.mem_append.mp he with he1 | he2
    · exact hproc e he1
    · have := List.mem_singleton.mp he2
      subst this
      exact hseg
  · exact hproc

/-- Counterexample to claim C7: with waypoints `(0,0), (10,0)` and two
annotations at `pathIndex = 0` where the second has a negative
`pauseDuration = -5`, the builder yields `totalDuration = 4` while the
first wait event spans `[1, 6)`; at elapsed time `4.5` the effective
time exceeds `totalDuration` yet that wait event is still active, so the
resolver reports `currentDistance = 0`, not `totalLength = 10`. -/
theorem claim_C7_counterexample :
    (timeline pts2 [.ann annNeg1, .ann annNeg2] sC2).totalDuration ≤
      effTime sC2 4.5 ∧
    (getAnimationState sC2 (timeline pts2 [.ann annNeg1, .ann annNeg2] sC2)
        (pathData pts2) 4.5).currentDistance ≠ (pathData pts2).totalLength := by
  rw [timeline_neg, pathData_pts2]
  constructor
  · norm_num [effTime, sC2]
  · norm_num [getAnimationState, effTime, sC2, timelinePhase, findActive,
      isActiveAt, passedEvents, collectIds, activeIdList]

/-- Claim C7 (amended): total distance conservation holds for schedules
built from items whose effective durations are non-negative (and a
non-negative default segment duration): whenever the effective time
reaches `totalDuration`, the resolver returns exactly `totalLength`. -/
theorem claim_C7 (pts : List Point) (items : List TimedItem) (s : AppSettings)
    (t : ℝ) (hseg : 0 ≤ s.defaultSegmentDuration)
    (hitems : ∀ it ∈ items, nonNegItem s it)
    (ht : (timeline pts items s).totalDuration ≤ effTime s t) :
    (getAnimationState s (timeline pts items s) (pathData pts)
      t).currentDistance = (pathData pts).totalLength := by
  have hdur := timeline_dur_nonneg pts items s hseg hitems
  obtain ⟨hchain, hend⟩ := timeline_schedOk pts items s
  have h0 : (0:ℝ) ≤ (timeline pts items s).totalDuration := by
    rw [← hend]
    exact le_endTime hdur
  have heff : 0 ≤ effTime s t := le_trans h0 ht
  have hno : findActive (effTime s t) (timeline pts items s).schedule = none := by
    apply chain_no_active_past_end hchain hdur
    rw [hend]
    exact ht
  have hflash : ¬(s.enableFlash = true ∧ t < s.flashDuration) := by
    rintro ⟨hf, htf⟩
    have hneg : effTime s t < 0 := by
      simp [effTime, hf]
      linarith
    linarith
  rw [getAnimationState, if_neg hflash, if_neg (not_lt.mpr heff)]
  simp only [timelinePhase]
  rw [hno]
  simp [ht]

/-- Witness for the amended claim C7: the bootstrap scenario has
non-negative durations, `totalDuration = 6`, and at `t = 7` the resolver
returns the total length. -/
theorem claim_C7_witness :
    (getAnimationState sC2 (timeline pts2 [.ann annB] sC2) (pathData pts2)
      7).currentDistance = (pathData pts2).totalLength := by
  apply claim_C7 pts2 [.ann annB] sC2 7
  · norm_num [sC2]
  · intro it hit
    have : it = .ann annB := by simpa using hit
    subst this
    constructor <;> simp [annB, sC2]
  · rw [timeline_C1ex]
    norm_num [effTime, sC2]

/-! ### Claim C10: flash noninterference when disabled -/

/-- Claim C10: if `enableFlash` is `false`, the resolver's output is
completely independent of `flashDuration`: any two flash durations give
identical states (distance and both revealed id lists), and
`isFlashing` is `false`. -/
theorem claim_C10 (s : AppSettings) (tl : Timeline) (pd : PathData)
    (t f1 f2 : ℝ) (hs : s.enableFlash = false) :
    getAnimationState { s with flashDuration := f1 } tl pd t =
      getAnimationState { s with flashDuration := f2 } tl pd t ∧
    (getAnimationState { s with flashDuration := f1 } tl pd t).isFlashing =
      false := by
  have h1 : ({ s with flashDuration := f1 } : AppSettings).enableFlash = false := hs
  have h2 : ({ s with flashDuration := f2 } : AppSettings).enableFlash = false := hs
  constructor
  · simp [getAnimationState, effTime, h1, h2, hs]
  · by_cases ht : t < 0 <;>
      simp [getAnimationState, effTime, h1, hs, ht, timelinePhase]

/-- Witness for C10: with flash disabled, flash durations `5` and `7`
give the same resolver output on a concrete empty schedule. -/
theorem claim_C10_witness :
    getAnimationState { sC2 with flashDuration := 5 } ⟨[], 0⟩ ⟨0, [], [0]⟩ 1 =
      getAnimationState { sC2 with flashDuration := 7 } ⟨[], 0⟩ ⟨0, [], [0]⟩ 1 ∧
    (getAnimationState { sC2 with flashDuration := 5 } ⟨[], 0⟩ ⟨0, [], [0]⟩
      1).isFlashing = false :=
  claim_C10 sC2 ⟨[], 0⟩ ⟨0, [], [0]⟩ 1 5 7 rfl

/-! ### Claim C3: backward pathIndex -/

theorem stepItem_ann_noDraw (pd : PathData) (s : AppSettings) (st : BuildState)
    (a : Annotation)
    (hc : ¬(optLT 0 (annSegmentDist pd st a.pathIndex) ∨
      (st.currentPointIdx = 0 ∧ a.pathIndex = 0 ∧ st.schedule.length = 0))) :
    stepItem pd s st (.ann a) =
      { st with
        schedule := st.schedule ++
          [{ type := .wait, startTime := st.timeCursor,
             duration := a.pauseDuration.getD s.defaultPauseDuration,
             startDist := st.distCursor, endDist := st.distCursor,
             itemId := some a.id }],
        timeCursor := st.timeCursor + a.pauseDuration.getD s.defaultPauseDuration,
        currentPointIdx := a.pathIndex } := by
  simp only [stepItem]
  rw [if_neg hc]

theorem pointDistances_length (ps : List Point) :
    (pathData ps).pointDistances.length = ps.length - 1 + 1 := by
  rw [pathData_eq]
  simp [cumFrom_length, consecDists_length]

theorem pointDistances_cons (ps : List Point) :
    (pathData ps).pointDistances = 0 :: cumFrom 0 (consecDists ps) := by
  rw [pathData_eq]

theorem idx?_neg (l : List ℝ) {i : ℤ} (h : i < 0) : idx? l i = none := by
  rw [idx?, if_neg (not_le.mpr h)]

theorem idx?_too_big (l : List ℝ) {i : ℤ} (h : (l.length : ℤ) ≤ i) :
    idx? l i = none := by
  rw [idx?]
  split
  · apply List.getElem?_eq_none
    omega
  · rfl

theorem idx?_cons_zero (x : ℝ) (l : List ℝ) : idx? (x :: l) 0 = some x := by
  rw [idx?, if_pos le_rfl]
  simp

theorem idx?_some_nonneg {l : List ℝ} {i : ℤ} {x : ℝ} (h : idx? l i = some x) :
    0 ≤ i := by
  rw [idx?] at h
  by_cases hi : 0 ≤ i
  · exact hi
  · rw [if_neg hi] at h
    exact absurd h (by simp)

theorem stepItem_dist_le (pd : PathData) (s : AppSettings) (st : BuildState)
    (it : TimedItem) (hst : ∀ e ∈ st.schedule, e.startDist ≤ e.endDist) :
    ∀ e ∈ (stepItem pd s st it).schedule, e.startDist ≤ e.endDist := by
  cases it with
  | ann a =>
      simp only [stepItem]
      split
      · rename_i hcond
        intro e he
        rcases List.mem_append.mp he with he1 | he2
        · rcases List.mem_append.mp he1 with he3 | he4
          · exact hst e he3
          · have he5 := List.mem_singleton.mp he4
            subst he5
            have hge : 0 ≤ (annSegmentDist pd st a.pathIndex).getD 0 := by
              rcases hcond with hpos | ⟨hcpi, hpi, _⟩
              · rcases hsd : annSegmentDist pd st a.pathIndex with _ | d
                · rw [hsd] at hpos
                  exact hpos.elim
                · rw [hsd] at hpos
                  have : (0:ℝ) < d := hpos
                  simp only [Option.getD_some]
                  linarith
              · have hzero : annSegmentDist pd st a.pathIndex = some 0 := by
                  rw [annSegmentDist, if_neg]
                  rw [hcpi, hpi]
                  exact lt_irrefl 0
                rw [hzero]
                simp
            show st.distCursor ≤ st.distCursor + (annSegmentDist pd st a.pathIndex).getD 0
            linarith
        · have he5 := List.mem_singleton.mp he2
          subst he5
          exact le_refl _
      · intro e he
        rcases List.mem_append.mp he with he1 | he2
        · exact hst e he1
        · have he5 := List.mem_singleton.mp he2
          subst he5
          exact le_refl _
  | area ar =>
      intro e he
      rcases List.mem_append.mp he with he1 | he2
      · exact hst e he1
      · have he5 := List.mem_singleton.mp he2
        subst he5
        exact le_refl _

theorem processItems_dist_le (pd : PathData) (s : AppSettings) :
    ∀ (items : List TimedItem) (st : BuildState),
    (∀ e ∈ st.schedule, e.startDist ≤ e.endDist) →
    ∀ e ∈ (processItems pd s st items).schedule, e.startDist ≤ e.endDist := by
  intro items
  induction items with
  | nil => intro st hst; exact hst
  | cons it rest ih =>
      intro st hst
      exact ih (stepItem pd s st it) (stepItem_dist_le pd s st it hst)

theorem timeline_dist_le (pts : List Point) (items : List TimedItem)
    (s : AppSettings) :
    ∀ e ∈ (timeline pts items s).schedule, e.startDist ≤ e.endDist := by
  have hproc := processItems_dist_le (pathData pts) s items initState
    (by intro e he; simp [initState] at he)
  rw [timeline, finishTail]
  split
  · rename_i hcond
    intro e he
    rcases List.mem_append.mp he with he1 | he2
    · exact hproc e he1
    · have he5 := List.mem_singleton.mp he2
      subst he5
      obtain ⟨_, _, hrem⟩ := hcond
      rcases hx : (idx? (pathData pts).pointDistances
          (processItems (pathData pts) s initState items).currentPointIdx).map
            (fun x => (pathData pts).totalLength - x) with _ | r
      · rw [hx] at hrem
        exact hrem.elim
      · rw [hx] at hrem
        have hr : (0.1:ℝ) < r := hrem
        show (processItems (pathData pts) s initState items).distCursor ≤
          (processItems (pathData pts) s initState items).distCursor +
            (some r).getD 0
        simp only [Option.getD_some]
        linarith
  · rename_i hcond
    exact hproc

/-- Claim C3: with at least 3 waypoints and two annotations at
`pathIndex = [2, 0]` in scheduling order, the second annotation emits
only its wait event (no draw event), `currentPointIdx` ends at `0`, the
trailing tail-draw event (emitted whenever the total length exceeds the
`0.1` epsilon) spans the full remaining distance
`totalLength - cumulativeDistances[0] = totalLength`, and no event with
`endDist < startDist` is ever emitted for any input. -/
theorem claim_C3 (pts : List Point) (s : AppSettings) (a b : Annotation)
    (hlen : 3 ≤ pts.length) (ha : a.pathIndex = 2) (hb : b.pathIndex = 0) :
    ((stepItem (pathData pts) s (stepItem (pathData pts) s initState (.ann a))
        (.ann b)).schedule =
      (stepItem (pathData pts) s initState (.ann a)).schedule ++
        [{ type := .wait,
           startTime := (stepItem (pathData pts) s initState (.ann a)).timeCursor,
           duration := b.pauseDuration.getD s.defaultPauseDuration,
           startDist := (stepItem (pathData pts) s initState (.ann a)).distCursor,
           endDist := (stepItem (pathData pts) s initState (.ann a)).distCursor,
           itemId := some b.id }]) ∧
    ((stepItem (pathData pts) s (stepItem (pathData pts) s initState (.ann a))
        (.ann b)).currentPointIdx = 0) ∧
    (0.1 < (pathData pts).totalLength →
      (timeline pts [.ann a, .ann b] s).schedule =
        (stepItem (pathData pts) s (stepItem (pathData pts) s initState (.ann a))
          (.ann b)).schedule ++
          [{ type := .draw,
             startTime := (stepItem (pathData pts) s
               (stepItem (pathData pts) s initState (.ann a)) (.ann b)).timeCursor,
             duration := s.defaultSegmentDuration,
             startDist := (stepItem (pathData pts) s
               (stepItem (pathData pts) s initState (.ann a)) (.ann b)).distCursor,
             endDist := (stepItem (pathData pts) s
               (stepItem (pathData pts) s initState (.ann a)) (.ann b)).distCursor +
                 (pathData pts).totalLength,
             itemId := none }]) ∧
    (∀ (q : List Point) (its : List TimedItem) (z : AppSettings),
      ∀ e ∈ (timeline q its z).schedule, e.startDist ≤ e.endDist) := by
  have hcpi1 : (stepItem (pathData pts) s initState (.ann a)).currentPointIdx = 2 :=
    ha
  have hne : (stepItem (pathData pts) s initState (.ann a)).schedule ≠ [] := by
    simp only [stepItem]
    split <;> simp
  have hc : ¬(optLT 0 (annSegmentDist (pathData pts)
        (stepItem (pathData pts) s initState (.ann a)) b.pathIndex) ∨
      ((stepItem (pathData pts) s initState (.ann a)).currentPointIdx = 0 ∧
        b.pathIndex = 0 ∧
        (stepItem (pathData pts) s initState (.ann a)).schedule.length = 0)) := by
    rintro (hpos | ⟨hcpi0, _, _⟩)
    · have hsd : annSegmentDist (pathData pts)
          (stepItem (pathData pts) s initState (.ann a)) b.pathIndex = some 0 := by
        rw [annSegmentDist, if_neg]
        rw [hcpi1, hb]
        norm_num
      rw [hsd] at hpos
      exact absurd hpos (by norm_num [optLT])
    · rw [hcpi1] at hcpi0
      exact absurd hcpi0 (by norm_num)
  have hstep2 := stepItem_ann_noDraw (pathData pts) s
    (stepItem (pathData pts) s initState (.ann a)) b hc
  refine ⟨?_, ?_, ?_, ?_⟩
  · rw [hstep2]
  · rw [hstep2]
    exact hb
  · intro htot
    have hcpi2 : (stepItem (pathData pts) s
        (stepItem (pathData pts) s initState (.ann a)) (.ann b)).currentPointIdx
          = 0 := by
      rw [hstep2]
      exact hb
    have hidx : idx? (pathData pts).pointDistances
        ((stepItem (pathData pts) s (stepItem (pathData pts) s initState (.ann a))
          (.ann b)).currentPointIdx) = some 0 := by
      rw [hcpi2, pointDistances_cons]
      exact idx?_cons_zero 0 _
    have hproc : processItems (pathData pts) s initState [.ann a, .ann b] =
        stepItem (pathData pts) s (stepItem (pathData pts) s initState (.ann a))
          (.ann b) := rfl
    rw [timeline, hproc, finishTail]
    rw [if_pos]
    · rw [hidx]
      simp
    · refine ⟨by omega, ?_, ?_⟩
      · rw [hcpi2]
        omega
      · rw [hidx]
        show (0.1:ℝ) < (pathData pts).totalLength - 0
        linarith
  · intro q its z
    exact timeline_dist_le q its z

/-- Witness for C3 at the concrete boundary waypoints and annotations
`pathIndex = 2` then `pathIndex = 0`: the cursor ends at waypoint 0. -/
theorem claim_C3_witness :
    3 ≤ pts3.length ∧
    (stepItem (pathData pts3) sC2 (stepItem (pathData pts3) sC2 initState
      (.ann annX)) (.ann annY)).currentPointIdx = 0 :=
  ⟨by simp [pts3], (claim_C3 pts3 sC2 annX annY (by simp [pts3]) rfl rfl).2.1⟩

/-! ### Claim C5: out-of-range pathIndex -/

theorem annSegmentDist_oob (pts : List Point) (st : BuildState) {ti : ℤ}
    (h : ti < 0 ∨ (pts.length : ℤ) ≤ ti) :
    ¬ optLT 0 (annSegmentDist (pathData pts) st ti) := by
  intro hpos
  rw [annSegmentDist] at hpos
  by_cases hlt : st.currentPointIdx < ti
  · rw [if_pos hlt] at hpos
    rcases h with hneg | hbig
    · rw [idx?_neg _ hneg] at hpos
      exact hpos
    · by_cases hnil : pts.length = 0
      · by_cases h1 : (1:ℤ) ≤ ti
        · rw [idx?_too_big _ (by rw [pointDistances_length]; push_cast; omega)]
            at hpos
          exact hpos
        · have hti : ti = 0 := by omega
          subst hti
          rw [pointDistances_cons, idx?_cons_zero,
            idx?_neg _ (by omega : st.currentPointIdx < 0)] at hpos
          exact hpos
      · rw [idx?_too_big _ (by rw [pointDistances_length]; push_cast; omega)]
          at hpos
        exact hpos
  · rw [if_neg hlt] at hpos
    exact absurd hpos (by norm_num [optLT])

theorem segDist_getD_nonneg (pd : PathData) (st : BuildState) {ti : ℤ}
    (hcond : optLT 0 (annSegmentDist pd st ti) ∨
      (st.currentPointIdx = 0 ∧ ti = 0 ∧ st.schedule.length = 0)) :
    0 ≤ (annSegmentDist pd st ti).getD 0 := by
  rcases hcond with hpos | ⟨hcpi, hpi, _⟩
  · rcases hsd : annSegmentDist pd st ti with _ | d
    · rw [hsd] at hpos
      exact hpos.elim
    · rw [hsd] at hpos
      have hd : (0:ℝ) < d := hpos
      simp only [Option.getD_some]
      linarith
  · have hzero : annSegmentDist pd st ti = some 0 := by
      rw [annSegmentDist, if_neg]
      rw [hcpi, hpi]
      exact lt_irrefl 0
    rw [hzero]
    simp

theorem stepItem_fields_nonneg (pd : PathData) (s : AppSettings) (st : BuildState)
    (it : TimedItem) (hit : nonNegItem s it) (h1 : 0 ≤ st.timeCursor)
    (h2 : 0 ≤ st.distCursor)
    (h3 : ∀ e ∈ st.schedule, 0 ≤ e.startTime ∧ 0 ≤ e.duration ∧
      0 ≤ e.startDist ∧ 0 ≤ e.endDist) :
    0 ≤ (stepItem pd s st it).timeCursor ∧ 0 ≤ (stepItem pd s st it).distCursor ∧
    ∀ e ∈ (stepItem pd s st it).schedule, 0 ≤ e.startTime ∧ 0 ≤ e.duration ∧
      0 ≤ e.startDist ∧ 0 ≤ e.endDist := by
  cases it with
  | ann a =>
      have hseg : 0 ≤ a.segmentDuration.getD s.defaultSegmentDuration := hit.1
      have hpause : 0 ≤ a.pauseDuration.getD s.defaultPauseDuration := hit.2
      simp only [stepItem]
      split
      · rename_i hcond
        have hge := segDist_getD_nonneg pd st hcond
        refine ⟨?_, ?_, ?_⟩
        · show 0 ≤ st.timeCursor + a.segmentDuration.getD s.defaultSegmentDuration
            + a.pauseDuration.getD s.defaultPauseDuration
          linarith
        · show 0 ≤ st.distCursor + (annSegmentDist pd st a.pathIndex).getD 0
          linarith
        · intro e he
          rcases List.mem_append.mp he with he1 | he2
          · rcases List.mem_append.mp he1 with he3 | he4
            · exact h3 e he3
            · have he5 := List.mem_singleton.mp he4
              subst he5
              exact ⟨h1, hseg, h2, by positivity⟩
          · have he5 := List.mem_singleton.mp he2
            subst he5
            refine ⟨by positivity, hpause, by positivity, by positivity⟩
      · refine ⟨?_, ?_, ?_⟩
        · show 0 ≤ st.timeCursor + a.pauseDuration.getD s.defaultPauseDuration
          linarith
        · exact h2
        · intro e he
          rcases List.mem_append.mp he with he1 | he2
          · exact h3 e he1
          · have he5 := List.mem_singleton.mp he2
            subst he5
            exact ⟨h1, hpause, h2, h2⟩
  | area ar =>
      have hdur : 0 ≤ ar.appearDuration.getD s.defaultAreaDuration := hit
      refine ⟨?_, h2, ?_⟩
      · show 0 ≤ st.timeCursor + ar.appearDuration.getD s.defaultAreaDuration
        linarith
      · intro e he
        rcases List.mem_append.mp he with he1 | he2
        · exact h3 e he1
        · have he5 := List.mem_singleton.mp he2
          subst he5
          exact ⟨h1, hdur, h2, h2⟩

theorem processItems_fields_nonneg (pd : PathData) (s : AppSettings) :
    ∀ (items : List TimedItem) (st : BuildState),
    (∀ it ∈ items, nonNegItem s it) → 0 ≤ st.timeCursor → 0 ≤ st.distCursor →
    (∀ e ∈ st.schedule, 0 ≤ e.startTime ∧ 0 ≤ e.duration ∧
      0 ≤ e.startDist ∧ 0 ≤ e.endDist) →
    0 ≤ (processItems pd s st items).timeCursor ∧
    0 ≤ (processItems pd s st items).distCursor ∧
    ∀ e ∈ (processItems pd s st items).schedule, 0 ≤ e.startTime ∧
      0 ≤ e.duration ∧ 0 ≤ e.startDist ∧ 0 ≤ e.endDist := by
  intro items
  induction items with
  | nil => intro st _ h1 h2 h3; exact ⟨h1, h2, h3⟩
  | cons it rest ih =>
      intro st hitems h1 h2 h3
      obtain ⟨k1, k2, k3⟩ := stepItem_fields_nonneg pd s st it
        (hitems it (List.mem_cons_self _ _)) h1 h2 h3
      exact ih (stepItem pd s st it)
        (fun j hj => hitems j (List.mem_cons_of_mem _ hj)) k1 k2 k3

theorem timeline_fields_nonneg (pts : List Point) (items : List TimedItem)
    (s : AppSettings) (hsg : 0 ≤ s.defaultSegmentDuration)
    (hitems : ∀ it ∈ items, nonNegItem s it) :
    ∀ e ∈ (timeline pts items s).schedule, 0 ≤ e.startTime ∧ 0 ≤ e.duration ∧
      0 ≤ e.startDist ∧ 0 ≤ e.endDist := by
  obtain ⟨k1, k2, k3⟩ := processItems_fields_nonneg (pathData pts) s items
    initState hitems le_rfl le_rfl (by intro e he; simp [initState] at he)
  rw [timeline, finishTail]
  split
  · rename_i hcond
    intro e he
    rcases List.mem_append.mp he with he1 | he2
    · exact k3 e he1
    · have he5 := List.mem_singleton.mp he2
      subst he5
      obtain ⟨_, _, hrem⟩ := hcond
      rcases hx : (idx? (pathData pts).pointDistances
          (processItems (pathData pts) s initState items).currentPointIdx).map
            (fun x => (pathData pts).totalLength - x) with _ | r
      · rw [hx] at hrem
        exact hrem.elim
      · rw [hx] at hrem
        have hr : (0.1:ℝ) < r := hrem
        refine ⟨k1, hsg, k2, ?_⟩
        show 0 ≤ (processItems (pathData pts) s initState items).distCursor +
          (some r).getD 0
        simp only [Option.getD_some]
        linarith
  · exact k3

theorem timeline_C5ex :
    timeline [] [.ann annB] sC2 =
      ⟨[⟨.draw, 0, 2, 0, 0, none⟩, ⟨.wait, 2, 1, 0, 0, some idB1⟩], 3⟩ := by
  rw [timeline]
  norm_num [pathData, processItems, stepItem, initState, annSegmentDist, idx?,
    optLT, finishTail, annB, sC2]

/-- Counterexample to claim C5 as stated: with zero waypoints the
annotation `pathIndex = 0` is out of range (`0 >= waypoint count`), yet
as the very first item it triggers the bootstrap case and a draw event
IS emitted for it (a zero-distance one), so "contributes no draw
segment" fails if read as "no draw event". -/
theorem claim_C5_counterexample :
    annB.pathIndex = 0 ∧ ([] : List Point).length = 0 ∧
    (timeline [] [.ann annB] sC2).schedule[0]? =
      some ⟨.draw, 0, 2, 0, 0, none⟩ := by
  refine ⟨rfl, rfl, ?_⟩
  rw [timeline_C5ex]
  simp

/-- Claim C5 (amended): the Timeline Builder is total (it cannot crash),
and for an annotation whose `pathIndex` is out of range (negative or at
least the waypoint count) it contributes no draw event — the schedule
grows by exactly the annotation's wait event — except in the single
bootstrap corner (zero waypoints, `pathIndex = 0`, nothing scheduled
yet, cursor at 0), where the zero-distance bootstrap draw event precedes
the wait event.  Moreover, with non-negative defaults and non-negative
effective item durations no emitted event carries a negative
`startTime`, `duration`, `startDistance` or `endDistance` (and no `NaN`:
the embedding is total over `ℝ`). -/
theorem claim_C5 :
    (∀ (pts : List Point) (s : AppSettings) (st : BuildState) (a : Annotation),
      (a.pathIndex < 0 ∨ (pts.length : ℤ) ≤ a.pathIndex) →
      ¬(st.currentPointIdx = 0 ∧ a.pathIndex = 0 ∧ st.schedule.length = 0) →
      (stepItem (pathData pts) s st (.ann a)).schedule = st.schedule ++
        [{ type := .wait, startTime := st.timeCursor,
           duration := a.pauseDuration.getD s.defaultPauseDuration,
           startDist := st.distCursor, endDist := st.distCursor,
           itemId := some a.id }]) ∧
    (∀ (s : AppSettings) (st : BuildState) (a : Annotation),
      a.pathIndex = 0 → st.currentPointIdx = 0 → st.schedule = [] →
      (stepItem (pathData []) s st (.ann a)).schedule =
        [{ type := .draw, startTime := st.timeCursor,
           duration := a.segmentDuration.getD s.defaultSegmentDuration,
           startDist := st.distCursor, endDist := st.distCursor,
           itemId := none },
         { type := .wait,
           startTime := st.timeCursor +
             a.segmentDuration.getD s.defaultSegmentDuration,
           duration := a.pauseDuration.getD s.defaultPauseDuration,
           startDist := st.distCursor, endDist := st.distCursor,
           itemId := some a.id }]) ∧
    (∀ (pts : List Point) (items : List TimedItem) (s : AppSettings),
      0 ≤ s.defaultSegmentDuration → 0 ≤ s.defaultPauseDuration →
      0 ≤ s.defaultAreaDuration → (∀ it ∈ items, nonNegItem s it) →
      ∀ e ∈ (timeline pts items s).schedule, 0 ≤ e.startTime ∧
        0 ≤ e.duration ∧ 0 ≤ e.startDist ∧ 0 ≤ e.endDist) := by
  refine ⟨?_, ?_, ?_⟩
  · intro pts s st a hoob hnb
    rw [stepItem_ann_noDraw (pathData pts) s st a]
    rintro (hpos | hb)
    · exact annSegmentDist_oob pts st hoob hpos
    · exact hnb hb
  · intro s st a h0 hcpi hsched
    have hsd : annSegmentDist (pathData []) st a.pathIndex = some 0 := by
      rw [annSegmentDist, if_neg]
      rw [hcpi, h0]
      exact lt_irrefl 0
    simp only [stepItem]
    rw [if_pos (Or.inr ⟨hcpi, h0, by rw [hsched]; rfl⟩)]
    rw [hsched, hsd]
    simp
  · intro pts items s hsg _ _ hitems
    exact timeline_fields_nonneg pts items s hsg hitems

/-- Witness for the amended claim C5: for the two-waypoint path and an
annotation with `pathIndex = 5` (out of range), only the wait event is
emitted by its scheduling step. -/
theorem claim_C5_witness :
    (stepItem (pathData pts2) sC2 initState (.ann annOOB)).schedule =
      [⟨.wait, 0, 1, 0, 0, some idO1⟩] := by
  have h := claim_C5.1 pts2 sC2 initState annOOB
    (Or.inr (by norm_num [pts2, annOOB]))
    (by simp [initState, annOOB])
  rw [h]
  simp [initState, annOOB, sC2]

/-! ### Claim C9: trailing tail-draw event -/

/-- Claim C9: with an empty item list, at least two waypoints and total
length above the `0.1` epsilon, the schedule is exactly one trailing
draw event spanning distance `0` to `totalLength` with duration
`defaults.segment` and `totalDuration = defaults.segment`; in general
the trailing draw event is appended if and only if
`currentPointIdx < lastIndex` and the remaining distance
`totalLength - cumulativeDistances[currentPointIdx]` exceeds `0.1`
(an out-of-range cursor read is `NaN`, whose comparison is false). -/
theorem claim_C9 :
    (∀ (pts : List Point) (s : AppSettings), 2 ≤ pts.length →
      0.1 < (pathData pts).totalLength →
      timeline pts [] s =
        ⟨[{ type := .draw, startTime := 0, duration := s.defaultSegmentDuration,
            startDist := 0, endDist := (pathData pts).totalLength,
            itemId := none }], s.defaultSegmentDuration⟩) ∧
    (∀ (pts : List Point) (items : List TimedItem) (s : AppSettings)
        (st : BuildState), st = processItems (pathData pts) s initState items →
      ((timeline pts items s).schedule = st.schedule ++
          [{ type := .draw, startTime := st.timeCursor,
             duration := s.defaultSegmentDuration,
             startDist := st.distCursor,
             endDist := st.distCursor +
               ((idx? (pathData pts).pointDistances st.currentPointIdx).map
                 (fun x => (pathData pts).totalLength - x)).getD 0,
             itemId := none }] ↔
        (st.currentPointIdx < (pts.length : ℤ) - 1 ∧
          optLT 0.1 ((idx? (pathData pts).pointDistances st.currentPointIdx).map
            (fun x => (pathData pts).totalLength - x))))) := by
  constructor
  · intro pts s hlen htot
    have hidx : idx? (pathData pts).pointDistances (0:ℤ) = some 0 := by
      rw [pointDistances_cons]
      exact idx?_cons_zero 0 _
    have hproc : processItems (pathData pts) s initState [] = initState := rfl
    rw [timeline, hproc, finishTail]
    rw [if_pos]
    · simp [initState, hidx]
    · refine ⟨by omega, ?_, ?_⟩
      · show initState.currentPointIdx < (pts.length : ℤ) - 1
        rw [show initState.currentPointIdx = (0:ℤ) from rfl]
        omega
      · show optLT 0.1 ((idx? (pathData pts).pointDistances
          initState.currentPointIdx).map (fun x => (pathData pts).totalLength - x))
        rw [show initState.currentPointIdx = (0:ℤ) from rfl, hidx]
        show (0.1:ℝ) < (pathData pts).totalLength - 0
        linarith
  · intro pts items s st hst
    subst hst
    rw [timeline, finishTail]
    split
    · rename_i hcond
      obtain ⟨h1, h2, h3⟩ := hcond
      simp only [Timeline.mk.injEq]
      constructor
      · intro _
        exact ⟨h2, h3⟩
      · intro _
        trivial
    · rename_i hcond
      constructor
      · intro heq
        have hlen := congrArg List.length heq
        simp at hlen
      · rintro ⟨hB, hC⟩
        exfalso
        apply hcond
        refine ⟨?_, hB, hC⟩
        rcases hx : idx? (pathData pts).pointDistances
            (processItems (pathData pts) s initState items).currentPointIdx
            with _ | x
        · rw [hx] at hC
          exact hC.elim
        · have h0 := idx?_some_nonneg hx
          omega

/-- Witness for C9: for the two-waypoint path and no items, the whole
schedule is the single tail draw event across the full length. -/
theorem claim_C9_witness :
    timeline pts2 [] sC2 =
      ⟨[{ type := .draw, startTime := 0, duration := sC2.defaultSegmentDuration,
          startDist := 0, endDist := (pathData pts2).totalLength,
          itemId := none }], sC2.defaultSegmentDuration⟩ :=
  claim_C9.1 pts2 sC2 (by simp [pts2])
    (by rw [pathData_pts2]; norm_num)

end

end AnnotateFlow
